import Mathlib

/-!
Shallow embedding of the nesting/branch-depth analysis engine of the
`toms-lints` repository.

The operative engine is `nesting_depth/src/lib.rs`: a stack-based visitor
(`NestingDepthVisitor`) over the pre-expansion syntax tree that records
`Lint` violations for excessive nesting depth and for runs of consecutive
if/else statements.  The files `nesting_depth/src/context.rs` and
`nesting_depth/src/config.rs` belong to a newer, incomplete iteration that
is not declared as a module of the crate; they are embedded separately in
namespace `NDv2`.  The early experiment `control_flow/src/lib.rs` is
embedded in namespace `CF`.

Source spans are modelled as opaque `Nat` identifiers; node identity plays
no role in the operative engine (it never stores or compares node ids).
-/

namespace ND

/-- `ContextKind` of `nesting_depth/src/lib.rs` (lines 127-144). -/
inductive ContextKind where
  | Func
  | Closure
  | Block
  | Static
  | Mod
  | Trait
  | Impl
  | If
  | Else
  | Let
  | Loop
  | While
  | For
  | Match
deriving DecidableEq, Repr

/-- `Reason` of `nesting_depth/src/lib.rs` (lines 168-172). -/
inductive Reason where
  | Depth (depth : Nat)
  | ConsecIfElse (count : Nat)
deriving DecidableEq, Repr

/-- `Lint` record of `nesting_depth/src/lib.rs` (lines 214-220). -/
structure Lint where
  outer_span : Option Nat
  span : Nat
  kind : ContextKind
  reason : Reason
deriving DecidableEq, Repr

/-- One stack entry, `Context` of `nesting_depth/src/lib.rs` (lines 146-166);
the `source_map` reference is display-only and omitted. -/
structure Context where
  span : Nat
  kind : ContextKind
  consec_if_else_span : Option Nat
  consec_if_else_count : Nat
  consec_if_else_lint : Option Lint
deriving DecidableEq, Repr

/-- `Context::new` (lines 155-165). -/
def Context.new (kind : ContextKind) (span : Nat) : Context :=
  { span := span
    kind := kind
    consec_if_else_span := none
    consec_if_else_count := 0
    consec_if_else_lint := none }

/-- Default maximum nesting levels (`DEFAULT_MAX_DEPTH`, lib.rs line 22). -/
def DEFAULT_MAX_DEPTH : Nat := 3

/-- Default maximum items in an if-block (`DEFAULT_MAX_ITEMS`, lib.rs line 25). -/
def DEFAULT_MAX_ITEMS : Nat := 10

/-- Default maximum consecutive if-else statements
(`DEFAULT_MAX_CONSEC_IF_ELSE`, lib.rs line 28). -/
def DEFAULT_MAX_CONSEC_IF_ELSE : Nat := 3

/-- The `Config` of `nesting_depth/src/lib.rs` (lines 37-48).  The `debug`
and `debug_span_info` fields only control trace printing and never affect
which lints are produced, so they are not modelled. -/
structure Config where
  max_depth : Nat
  max_items : Nat
  max_consec_if_else : Nat
deriving DecidableEq, Repr

/-- `Config::default` / the serde-inline defaults (lib.rs lines 50-60). -/
def Config.default : Config :=
  { max_depth := DEFAULT_MAX_DEPTH
    max_items := DEFAULT_MAX_ITEMS
    max_consec_if_else := DEFAULT_MAX_CONSEC_IF_ELSE }

/-- The external configuration as deserialized: every key optional.
`serde_inline_default` substitutes the named default constant for each
missing key (lib.rs lines 35-48). -/
structure ConfigFile where
  max_depth : Option Nat
  max_items : Option Nat
  max_consec_if_else : Option Nat
deriving DecidableEq, Repr

/-- Applying the serde-inline defaults to a deserialized configuration:
each missing key takes the corresponding `DEFAULT_*` constant. -/
def Config.fromFile (f : ConfigFile) : Config :=
  { max_depth := f.max_depth.getD DEFAULT_MAX_DEPTH
    max_items := f.max_items.getD DEFAULT_MAX_ITEMS
    max_consec_if_else := f.max_consec_if_else.getD DEFAULT_MAX_CONSEC_IF_ELSE }

/-- Mutable state of `NestingDepthVisitor` (lib.rs lines 222-229); the
borrowed `config` and `source_map` are passed as parameters instead. -/
structure Visitor where
  contexts : List Context
  lints : List Lint
  current_nesting_lint : Option Lint
  inside_fn : Bool
deriving DecidableEq, Repr

/-- `NestingDepthVisitor::new` (lib.rs lines 445-454). -/
def Visitor.new : Visitor :=
  { contexts := []
    lints := []
    current_nesting_lint := none
    inside_fn := false }

/-- `NestingDepthVisitor::depth` (lib.rs lines 456-458):
`self.contexts.len().saturating_sub(1)`; `Nat` subtraction saturates. -/
def depth (v : Visitor) : Nat :=
  v.contexts.length - 1

/-- Apply `f` to the last element of a list, if any: models obtaining
`contexts.last_mut()` and mutating through it. -/
def updateLast (f : Context → Context) : List Context → List Context
  | [] => []
  | [c] => [f c]
  | c :: rest => c :: updateLast f rest

/-- `NestingDepthVisitor::inc_if_else` (lib.rs lines 479-510): bump the
consecutive if/else counter of the top context; once the counter exceeds
`max_consec_if_else`, create the context's consecutive-branch lint (keeping
an already-created one) and refresh its count. -/
def inc_if_else (cfg : Config) (span : Nat) (v : Visitor) : Visitor :=
  match v.contexts.getLast? with
  | none => v
  | some ctx =>
    let outer_span := ctx.consec_if_else_span.getD span
    let count := ctx.consec_if_else_count + 1
    let lint :=
      if count > cfg.max_consec_if_else then
        let l0 := ctx.consec_if_else_lint.getD
          { outer_span := some outer_span
            span := span
            kind := ctx.kind
            reason := Reason.ConsecIfElse count }
        some { l0 with reason := Reason.ConsecIfElse count }
      else ctx.consec_if_else_lint
    { v with
      contexts := updateLast (fun c =>
        { c with
          consec_if_else_span := some outer_span
          consec_if_else_count := count
          consec_if_else_lint := lint }) v.contexts }

/-- `NestingDepthVisitor::reset_if_else` (lib.rs lines 512-518): clear the
top context's consecutive if/else bookkeeping, lint included. -/
def reset_if_else (v : Visitor) : Visitor :=
  { v with
    contexts := updateLast (fun c =>
      { c with
        consec_if_else_span := none
        consec_if_else_count := 0
        consec_if_else_lint := none }) v.contexts }

/-- `NestingDepthVisitor::push_context` (lib.rs lines 520-538): push a new
context; if the resulting depth exceeds `max_depth`, create the current
nesting lint (keeping an already-open one) with `outer_span` taken from the
context at index 1, and refresh its depth count. -/
def push_context (cfg : Config) (kind : ContextKind) (span : Nat) (v : Visitor) : Visitor :=
  let contexts := v.contexts ++ [Context.new kind span]
  let v' := { v with contexts := contexts }
  let d := depth v'
  if d ≤ cfg.max_depth then v'
  else
    let outer_span := (contexts[1]?).map (·.span)
    let l0 := v.current_nesting_lint.getD
      { outer_span := outer_span
        span := span
        kind := kind
        reason := Reason.Depth d }
    { v' with current_nesting_lint := some { l0 with reason := Reason.Depth d } }

/-- First half of `NestingDepthVisitor::pop_context` (lib.rs lines
541-546): `if let Some(mut ctx) = self.contexts.pop() && let Some(lint) =
ctx.consec_if_else_lint.take() { self.lints.push(lint) }` — remove the top
context (a no-op when the stack is empty) and flush its
consecutive-branch lint, if any. -/
def pop_flush_consec (v : Visitor) : Visitor :=
  match v.contexts.getLast? with
  | none => v
  | some ctx =>
    let v' := { v with contexts := v.contexts.dropLast }
    match ctx.consec_if_else_lint with
    | some l => { v' with lints := v'.lints ++ [l] }
    | none => v'

/-- Second half of `pop_context` (lib.rs lines 547-551): when the given
pre-pop depth is at most `max_depth`, take and flush the current nesting
lint. -/
def flush_nesting (cfg : Config) (d : Nat) (v : Visitor) : Visitor :=
  if d ≤ cfg.max_depth then
    match v.current_nesting_lint with
    | some l => { v with lints := v.lints ++ [l], current_nesting_lint := none }
    | none => v
  else v

/-- `NestingDepthVisitor::pop_context` (lib.rs lines 540-552): the depth
is read before popping, then the two flush steps run in order. -/
def pop_context (cfg : Config) (v : Visitor) : Visitor :=
  flush_nesting cfg (depth v) (pop_flush_consec v)

/-!
The syntax tree, restricted to the shapes `NestingDepthVisitor` inspects
(`rustc_ast` nodes as matched in `visit_expr`, `visit_item`, `visit_stmt`,
`process_if` and `process_fn`).  Lists and options of tree nodes are given
their own constructors so that all traversal functions are structurally
recursive over one mutual family.
-/

mutual

/-- Expressions, after `ExprKind` as matched in `visit_expr`
(lib.rs lines 290-372).  `otherE` stands for every kind that falls into the
default arm there (no sub-visit).  Condition sub-expressions appear exactly
where the visitor reads them. -/
inductive Expr : Type where
  | letE (sub : Expr) (span : Nat)
  | ifE (thenB : Block) (els : OptExpr) (span : Nat)
  | whileE (cond : Expr) (body : Block) (span : Nat)
  | forE (body : Block) (span : Nat)
  | loopE (body : Block) (span : Nat)
  | matchE (arms : ExprList) (span : Nat)
  | closureE (body : Expr) (span : Nat)
  | blockE (b : Block) (span : Nat)
  | genE (b : Block) (span : Nat)
  | tryE (b : Block) (span : Nat)
  | callE (args : ExprList) (span : Nat)
  | otherE (span : Nat)

/-- `Option<Expr>`: the else-branch of an `if`, a static initializer. -/
inductive OptExpr : Type where
  | noneE
  | someE (e : Expr)

/-- A list of expressions: call arguments, match-arm bodies (arms whose
body is `None` are skipped by the source visitor and not represented). -/
inductive ExprList : Type where
  | nilE
  | consE (e : Expr) (rest : ExprList)

/-- A block with its statements and span. -/
inductive Block : Type where
  | mk (stmts : StmtList) (span : Nat)

/-- A list of statements. -/
inductive StmtList : Type where
  | nilS
  | consS (s : Stmt) (rest : StmtList)

/-- Statements as matched in `visit_stmt` (lib.rs lines 425-441):
`let` declarations without initializer are skipped, `let x = e` visits `e`,
`let x = e else b` visits `e` then `b`, items and (semi-)expressions are
visited, everything else is skipped. -/
inductive Stmt : Type where
  | letDecl
  | letInit (e : Expr)
  | letInitElse (e : Expr) (b : Block)
  | itemS (it : Item)
  | exprS (e : Expr)
  | semiS (e : Expr)
  | otherS

/-- Items as matched in `visit_item` (lib.rs lines 374-423). -/
inductive Item : Type where
  | staticI (init : OptExpr) (span : Nat)
  | fnI (f : FnDef) (span : Nat)
  | modI (items : ItemList) (span : Nat)
  | traitI (fns : FnList) (span : Nat)
  | implI (fns : FnList) (span : Nat)
  | otherI (span : Nat)

/-- A list of items (a loaded module body, or the crate root). -/
inductive ItemList : Type where
  | nilI
  | consI (it : Item) (rest : ItemList)

/-- `Option<Block>`: a function body (absent for declarations). -/
inductive OptBlock : Type where
  | noneB
  | someB (b : Block)

/-- `rustc_ast::Fn`, reduced to the body the visitor reads. -/
inductive FnDef : Type where
  | mk (body : OptBlock)

/-- Associated `fn` items of a trait or impl, each with its item span
(the span `visit_item` hands to `process_fn`). -/
inductive FnList : Type where
  | nilF
  | consF (f : FnDef) (span : Nat) (rest : FnList)

end

/-- The span of an expression. -/
def Expr.span : Expr → Nat
  | .letE _ sp => sp
  | .ifE _ _ sp => sp
  | .whileE _ _ sp => sp
  | .forE _ sp => sp
  | .loopE _ sp => sp
  | .matchE _ sp => sp
  | .closureE _ sp => sp
  | .blockE _ sp => sp
  | .genE _ sp => sp
  | .tryE _ sp => sp
  | .callE _ sp => sp
  | .otherE sp => sp

/-- Whether an expression is an `if` (the guard of the
`reset_if_else` call at the top of `visit_expr`, lib.rs line 293). -/
def Expr.isIf : Expr → Bool
  | .ifE _ _ _ => true
  | _ => false

/-- The span of a block. -/
def Block.span : Block → Nat
  | .mk _ sp => sp

/-- The span of an item. -/
def Item.span : Item → Nat
  | .staticI _ sp => sp
  | .fnI _ sp => sp
  | .modI _ sp => sp
  | .traitI _ sp => sp
  | .implI _ sp => sp
  | .otherI sp => sp

/-- Modelled from the spec: the macro-exclusion filter (spec section 4.3)
is declared by `Config::ignore_macros` in `nesting_depth/src/config.rs`
but its implementation is not part of the sources; per the spec the front
end supplies, for each span, the expansion-ancestry list of macro names
(innermost first), and a node is excluded when any ancestor's name is in
`ignore_macros`. -/
def span_is_excluded (ignore : List String) (anc : Nat → List String) (sp : Nat) : Bool :=
  (anc sp).any (fun n => ignore.contains n)

/-- The trivial exclusion predicate: nothing is excluded.  With this
predicate the traversal below is exactly the visitor of
`nesting_depth/src/lib.rs` (which has no exclusion filter). -/
def noExcl : Nat → Bool := fun _ => false

mutual

/-- `Visitor::visit_expr` (lib.rs lines 290-372): any non-`if` expression
resets the top context's consecutive if/else bookkeeping; then the
expression is dispatched on its kind.  For `ExprKind::If` the source calls
`process_if(expr)` on the same node; its `If` arm (lib.rs lines 559-566)
is inlined here so that all recursion is structural.

The `excl` test is the spec-modelled exclusion filter (spec section 4.3,
"consulted once per node before any Context Stack mutation"); the filter is
absent from the source visitor, and with `excl = noExcl` this test is inert
and the function is exactly the source's `visit_expr`. -/
def visitExpr (cfg : Config) (excl : Nat → Bool) (v : Visitor) (e : Expr) : Visitor :=
  if excl e.span then v else
  let v := if e.isIf then v else reset_if_else v
  match e with
  | .letE sub span =>
    pop_context cfg (visitExpr cfg excl (push_context cfg .Let span v) sub)
  | .ifE thenB els span =>
    let v1 := inc_if_else cfg span v
    let v2 := push_context cfg .If span v1
    let v3 := visitBlock cfg excl v2 thenB
    let v4 := pop_context cfg v3
    processElse cfg excl v4 els
  | .whileE cond body span =>
    let v1 := push_context cfg .While span v
    let v2 := visitExpr cfg excl v1 cond
    let v3 := visitBlock cfg excl v2 body
    pop_context cfg v3
  | .forE body span =>
    pop_context cfg (visitBlock cfg excl (push_context cfg .For span v) body)
  | .loopE body span =>
    pop_context cfg (visitBlock cfg excl (push_context cfg .Loop span v) body)
  | .matchE arms _span =>
    -- the source visits the arm bodies only; the `Match` context push is
    -- commented out in the source (lib.rs lines 328-336)
    visitExprs cfg excl v arms
  | .closureE body _span =>
    visitExpr cfg excl v body
  | .blockE b _span =>
    if v.inside_fn then
      pop_context cfg (visitBlock cfg excl (push_context cfg .Block b.span v) b)
    else
      visitBlock cfg excl v b
  | .genE b _span => visitBlock cfg excl v b
  | .tryE b _span => visitBlock cfg excl v b
  | .callE args _span => visitExprs cfg excl v args
  | .otherE _span => v

/-- Visit each expression of a list (call arguments, match arms). -/
def visitExprs (cfg : Config) (excl : Nat → Bool) (v : Visitor) : ExprList → Visitor
  | .nilE => v
  | .consE e rest => visitExprs cfg excl (visitExpr cfg excl v e) rest

/-- The recursion `if let Some(else_expr) = else_expr { self.process_if(else_expr) }`
of `process_if` (lib.rs lines 564-566). -/
def processElse (cfg : Config) (excl : Nat → Bool) (v : Visitor) : OptExpr → Visitor
  | .noneE => v
  | .someE e => processIf cfg excl v e

/-- `NestingDepthVisitor::process_if` (lib.rs lines 554-575), for the
expressions reached through an `else`: bump the consecutive if/else counter
first, then either handle a chained `if` (pushing an `If` context) or a
final else block (pushing an `Else` context).  The source marks any other
expression kind `unreachable!` (the parser produces only these two shapes);
such ill-formed input is modelled as a no-op. -/
def processIf (cfg : Config) (excl : Nat → Bool) (v : Visitor) (e : Expr) : Visitor :=
  let v := inc_if_else cfg e.span v
  match e with
  | .ifE thenB els span =>
    let v2 := push_context cfg .If span v
    let v3 := visitBlock cfg excl v2 thenB
    let v4 := pop_context cfg v3
    processElse cfg excl v4 els
  | .blockE b _span =>
    pop_context cfg (visitBlock cfg excl (push_context cfg .Else b.span v) b)
  | _ => v

/-- `Visitor::visit_block` (lib.rs lines 277-282): visit the statements. -/
def visitBlock (cfg : Config) (excl : Nat → Bool) (v : Visitor) : Block → Visitor
  | .mk stmts _span => visitStmts cfg excl v stmts

/-- Visit each statement of a block. -/
def visitStmts (cfg : Config) (excl : Nat → Bool) (v : Visitor) : StmtList → Visitor
  | .nilS => v
  | .consS s rest => visitStmts cfg excl (visitStmt cfg excl v s) rest

/-- `Visitor::visit_stmt` (lib.rs lines 425-441). -/
def visitStmt (cfg : Config) (excl : Nat → Bool) (v : Visitor) : Stmt → Visitor
  | .letDecl => v
  | .letInit e => visitExpr cfg excl v e
  | .letInitElse e b => visitBlock cfg excl (visitExpr cfg excl v e) b
  | .itemS it => visitItem cfg excl v it
  | .exprS e => visitExpr cfg excl v e
  | .semiS e => visitExpr cfg excl v e
  | .otherS => v

/-- `Visitor::visit_item` (lib.rs lines 374-423).  The `excl` test is the
spec-modelled exclusion filter, inert under `noExcl` (see `visitExpr`). -/
def visitItem (cfg : Config) (excl : Nat → Bool) (v : Visitor) (it : Item) : Visitor :=
  if excl it.span then v else
  match it with
  | .staticI init span =>
    match init with
    | .noneE => v
    | .someE e =>
      pop_context cfg (visitExpr cfg excl (push_context cfg .Static span v) e)
  | .fnI f span =>
    let v1 := push_context cfg .Func span v
    let v2 := processFn cfg excl v1 f span
    pop_context cfg v2
  | .modI items span =>
    pop_context cfg (visitItems cfg excl (push_context cfg .Mod span v) items)
  | .traitI fns span =>
    pop_context cfg (visitFns cfg excl (push_context cfg .Trait span v) fns)
  | .implI fns span =>
    pop_context cfg (visitFns cfg excl (push_context cfg .Impl span v) fns)
  | .otherI _span => v

/-- Visit each item of a list (`visit_crate` and loaded modules). -/
def visitItems (cfg : Config) (excl : Nat → Bool) (v : Visitor) : ItemList → Visitor
  | .nilI => v
  | .consI it rest => visitItems cfg excl (visitItem cfg excl v it) rest

/-- The associated-`fn` loops of the `Trait` and `Impl` arms of
`visit_item` (lib.rs lines 398-415): `process_fn(func, item.span)` for each
associated function item. -/
def visitFns (cfg : Config) (excl : Nat → Bool) (v : Visitor) : FnList → Visitor
  | .nilF => v
  | .consF f span rest => visitFns cfg excl (processFn cfg excl v f span) rest

/-- `NestingDepthVisitor::process_fn` (lib.rs lines 577-592): skip bodyless
functions; push an extra `Func` context only when already inside a
function; set `inside_fn`, visit the body, pop once, restore `inside_fn`.
At top level this pop removes the `Func` context pushed by `visit_item`,
whose own following pop then acts on a shorter stack. -/
def processFn (cfg : Config) (excl : Nat → Bool) (v : Visitor) (f : FnDef) (span : Nat) : Visitor :=
  match f with
  | .mk .noneB => v
  | .mk (.someB body) =>
    let was := v.inside_fn
    let v1 := if was then push_context cfg .Func span v else v
    let v2 := { v1 with inside_fn := true }
    let v3 := visitBlock cfg excl v2 body
    let v4 := pop_context cfg v3
    { v4 with inside_fn := was }

end

/-- `NestingDepth::check_crate` (lib.rs lines 595-615): run the visitor
over the crate's items starting from a fresh state and hand the recorded
lints to the diagnostic sink in order. -/
def check_crate (cfg : Config) (excl : Nat → Bool) (krate : ItemList) : List Lint :=
  (visitItems cfg excl Visitor.new krate).lints

end ND

namespace NDv2

/-!
The newer iteration of the engine: `nesting_depth/src/context.rs` and
`nesting_depth/src/config.rs`.  These files are not declared as modules of
the `nesting_depth` crate (its `lib.rs` has no `mod` items and defines its
own `Config` and `ContextKind`), but they carry the per-kind depth
predicate and configuration defaults of the redesign.
-/

/-- Default maximum nesting levels (config.rs line 9). -/
def DEFAULT_MAX_DEPTH : Nat := 3

/-- Default ignore closures when counting depth (config.rs line 12). -/
def DEFAULT_IGNORE_CLOSURES : Bool := true

/-- Default maximum items in an if-then block (config.rs line 15). -/
def DEFAULT_MAX_THEN_ITEMS : Nat := 20

/-- Default maximum consecutive if-else statements (config.rs line 18). -/
def DEFAULT_MAX_CONSEC_IF_ELSE : Nat := 10

/-- `Config` of `nesting_depth/src/config.rs` (lines 25-55); the
debug-trace fields are display-only and omitted. -/
structure Config where
  max_depth : Nat
  ignore_closures : Bool
  max_then_items : Nat
  max_consec_if_else : Nat
  ignore_macros : List String
deriving DecidableEq, Repr

/-- `Config::default` (config.rs lines 57-69). -/
def Config.default : Config :=
  { max_depth := DEFAULT_MAX_DEPTH
    ignore_closures := DEFAULT_IGNORE_CLOSURES
    max_then_items := DEFAULT_MAX_THEN_ITEMS
    max_consec_if_else := DEFAULT_MAX_CONSEC_IF_ELSE
    ignore_macros := [] }

/-- `ContextKind` of `nesting_depth/src/context.rs` (lines 7-23). -/
inductive ContextKind where
  | Func
  | Mod
  | Trait
  | Impl
  | If
  | Then
  | ElseIf
  | Else
  | Match
  | Closure
  | Block
  | ExprBlock
  | While
  | For
  | Loop
deriving DecidableEq, Repr

/-- `ContextKind::count_depth` of `nesting_depth/src/context.rs`
(lines 25-44). -/
def ContextKind.count_depth (k : ContextKind) (cfg : Config) : Bool :=
  match k with
  | .Func => true
  | .Mod => false
  | .Trait => false
  | .Impl => false
  | .If => false
  | .Then => true
  | .ElseIf => false
  | .Else => false
  | .Match => true
  | .Closure => !cfg.ignore_closures
  | .Block => true
  | .ExprBlock => true
  | .While => true
  | .For => true
  | .Loop => true

end NDv2

namespace CF

/-!
The early experiment `control_flow/src/lib.rs`: its `MyVisitor` keeps a
plain context stack and computes a filtered depth, emitting no lints.
-/

/-- `ContextKind` of `control_flow/src/lib.rs` (lines 109-122). -/
inductive ContextKind where
  | Func
  | Closure
  | Static
  | If
  | Else
  | Let
  | Loop
  | While
  | For
  | Match
deriving DecidableEq, Repr

/-- `ContextKind::count_depth` of `control_flow/src/lib.rs`
(lines 124-131): everything counts except `Func`, `Closure`, `Static`. -/
def ContextKind.count_depth (k : ContextKind) : Bool :=
  match k with
  | .Func => false
  | .Closure => false
  | .Static => false
  | _ => true

/-- A `control_flow` stack entry (span and kind; the `source_map` is
display-only). -/
structure Context where
  span : Nat
  kind : ContextKind
deriving DecidableEq, Repr

/-- `MyVisitor::depth` of `control_flow/src/lib.rs` (lines 297-302): the
number of contexts whose kind satisfies `count_depth`. -/
def depth (contexts : List Context) : Nat :=
  (contexts.filter (fun c => c.kind.count_depth)).length

end CF

namespace ND

/-!
Spec-side definitions.  These two definitions follow the words of the
claims being checked against `depth` and `push_context`, not the source;
they exist solely to be compared with the source-derived behaviour.
-/

/-- The depth predicate as the claims state it for the operative engine's
kinds: `If` never counts, `Then`-style branch bodies, `Match`, `Block` and
the loop family count, `Closure` counts unless closures are ignored.
The kinds the claims do not mention (`Let`, `Static`, `Mod`, `Trait`,
`Impl`) are given the values of the corresponding `NDv2` kinds. -/
def counts_toward_depth_spec (ignore_closures : Bool) : ContextKind → Bool
  | .Func => true
  | .Closure => !ignore_closures
  | .Block => true
  | .Static => false
  | .Mod => false
  | .Trait => false
  | .Impl => false
  | .If => false
  | .Else => true
  | .Let => true
  | .Loop => true
  | .While => true
  | .For => true
  | .Match => true

/-- The depth query as the claims state it: the number of contexts on the
stack, excluding the outermost function/item root, whose kind satisfies
the depth predicate. -/
def depth_spec (ignore_closures : Bool) (contexts : List Context) : Nat :=
  ((contexts.drop 1).filter (fun c => counts_toward_depth_spec ignore_closures c.kind)).length

/-- The `outer_span` anchor as the claims state it: the span of the first
context one level past the `max_depth` threshold (the context at stack
index `max_depth + 1`). -/
def outer_span_spec (cfg : Config) (contexts : List Context) : Option Nat :=
  (contexts[cfg.max_depth + 1]?).map (·.span)

/-- Whether a lint's reason is `ConsecIfElse`. -/
def Reason.is_consec : Reason → Bool
  | .ConsecIfElse _ => true
  | .Depth _ => false

/-- Number of `ConsecIfElse` lints in a result list. -/
def countConsec (ls : List Lint) : Nat :=
  (ls.filter (fun l => l.reason.is_consec)).length

/-- Number of `Depth` lints in a result list. -/
def countDepthLints (ls : List Lint) : Nat :=
  (ls.filter (fun l => !l.reason.is_consec)).length

/-!
Concrete input trees used to evaluate the engine at specific inputs.
Spans are arbitrary distinct naturals: if-expressions use small numbers,
then-blocks `40 + _`, the function item 50, its body 60, statement
expressions 70-80.
-/

/-- Statement list from a `List`. -/
def sl (l : List Stmt) : StmtList :=
  l.foldr .consS .nilS

/-- An `if` with an empty then-block and no else, as a statement. -/
def ifStmt (sp : Nat) : Stmt :=
  .semiS (.ifE (.mk .nilS (40 + sp)) .noneE sp)

/-- A function item (span 50) with the given body statements (body span 60). -/
def fnOf (stmts : StmtList) : Item :=
  .fnI (.mk (.someB (.mk stmts 60))) 50

/-- A crate with a single function item. -/
def crate1 (stmts : StmtList) : ItemList :=
  .consI (fnOf stmts) .nilI

/-- `n` nested `if`s, each the only statement of the previous one's
then-block; the innermost then-block holds a plain expression. -/
def nestedIf : Nat → Expr
  | 0 => .otherE 9
  | n + 1 => .ifE (.mk (.consS (.semiS (nestedIf n)) .nilS) (40 + n)) .noneE n

/-- `fn f() { if { if { if { if { } } } } }`: four directly nested ifs. -/
def treeDeep4 : ItemList :=
  crate1 (.consS (.semiS (nestedIf 4)) .nilS)

/-- `fn f() { if {} if {} }`: two independent sibling ifs. -/
def treeTwoSiblings : ItemList :=
  crate1 (sl [ifStmt 1, ifStmt 2])

/-- `fn f() { if {} if {} if {} if {} }`: four independent sibling ifs. -/
def treeFourSiblings : ItemList :=
  crate1 (sl [ifStmt 1, ifStmt 2, ifStmt 3, ifStmt 4])

/-- `fn f() { if a {} else if b {} else {} }`: one chain of three. -/
def treeChain3 : ItemList :=
  crate1 (sl [.semiS (.ifE (.mk .nilS 41)
    (.someE (.ifE (.mk .nilS 42)
      (.someE (.blockE (.mk .nilS 43) 83)) 2)) 1)])

/-- Four sibling ifs followed by a call expression statement. -/
def treeFourSiblingsThenCall : ItemList :=
  crate1 (sl [ifStmt 1, ifStmt 2, ifStmt 3, ifStmt 4, .semiS (.callE .nilE 9)])

/-- `fn f() { { { } } }`: two nested block expressions
(block spans 11 and 12). -/
def treeTwoBlocks : ItemList :=
  crate1 (sl [.semiS (.blockE (.mk (sl [.semiS (.blockE (.mk .nilS 12) 72)]) 11) 71)])

/-- A configuration with `max_depth = 1` and the other defaults. -/
def cfgMax1 : Config := { max_depth := 1, max_items := 10, max_consec_if_else := 3 }

/-- A configuration with `max_depth = 2` and the other defaults. -/
def cfgMax2 : Config := { max_depth := 2, max_items := 10, max_consec_if_else := 3 }

/-- `{ }` with span 14. -/
def blkS1i : Block := .mk .nilS 14

/-- `{ }` with span 16. -/
def blkS2i : Block := .mk .nilS 16

/-- `{ { } }` with spans 13/14. -/
def blkS1 : Block := .mk (sl [.semiS (.blockE blkS1i 75)]) 13

/-- `{ { } }` with spans 15/16. -/
def blkS2 : Block := .mk (sl [.semiS (.blockE blkS2i 76)]) 15

/-- `{ {{}} {{}} }` with span 12: two sibling doubly-nested blocks. -/
def blkB2 : Block := .mk (sl [.semiS (.blockE blkS1 73), .semiS (.blockE blkS2 74)]) 12

/-- `{ { {{}} {{}} } }` with span 11. -/
def blkB1 : Block := .mk (sl [.semiS (.blockE blkB2 72)]) 11

/-- `fn f() { { { {{}} {{}} } } }`: two sibling depth-4 excursions
separated by a dip to depth 2. -/
def treeTwinPeaks : ItemList :=
  crate1 (sl [.semiS (.blockE blkB1 71)])

/-- The visitor state at the start of a top-level function body:
the `Func` context pushed by `visit_item`, `inside_fn` set by
`process_fn`. -/
def vFnTop : Visitor :=
  { push_context Config.default .Func 50 Visitor.new with inside_fn := true }

/-- A traversal state with an `If` context above the function root
(reached by the first two pushes the visitor performs on any
`fn f() { if ... }`). -/
def vFuncIf : Visitor :=
  push_context Config.default .If 1 (push_context Config.default .Func 0 Visitor.new)

/-- The state after the visitor has pushed five contexts (`Func` and four
nested `If`s) under the default configuration: the current nesting lint is
open. -/
def vDeep5 : Visitor :=
  push_context Config.default .If 4
    (push_context Config.default .If 3
      (push_context Config.default .If 2
        (push_context Config.default .If 1
          (push_context Config.default .Func 0 Visitor.new))))

/-- The open depth lint of `vDeep5`: created when the fourth `If` was
pushed (outer span from the context at index 1, span of the pushed
context, depth 4). -/
def lintDeep4 : Lint :=
  { outer_span := some 1, span := 4, kind := .If, reason := .Depth 4 }

/-- A state at depth 0 (only the function root) with an open nesting lint
still to be flushed. -/
def vRootOpenLint : Visitor :=
  { contexts := [Context.new .Func 0]
    lints := []
    current_nesting_lint := some lintDeep4
    inside_fn := true }

/-- Modelled from the spec: an expansion-ancestry provider marking every
span below 50 (the spans of `nestedIf`) as expanded from macro `html`. -/
def ancHtml : Nat → List String := fun sp => if sp < 50 then ["html"] else []

/-- The exclusion predicate for `ignore_macros = ["html"]` over
`ancHtml`. -/
def exclHtml : Nat → Bool := span_is_excluded ["html"] ancHtml

/-!
Relating two traversals of the same tree that differ only in the
`max_consec_if_else` threshold (side `A` with the lower threshold, side `B`
with the higher): the context stacks agree except that `B`'s open
consecutive-branch lints are a subset of `A`'s, and `B` has emitted at most
as many `ConsecIfElse` lints.
-/

/-- Pointwise relation between corresponding stack entries of the
low-threshold (`cA`) and high-threshold (`cB`) traversal. -/
structure CtxRel (cA cB : Context) : Prop where
  span_eq : cA.span = cB.span
  kind_eq : cA.kind = cB.kind
  count_eq : cA.consec_if_else_count = cB.consec_if_else_count
  cspan_eq : cA.consec_if_else_span = cB.consec_if_else_span
  lint_imp : cB.consec_if_else_lint.isSome → cA.consec_if_else_lint.isSome
  lintA_consec : ∀ l, cA.consec_if_else_lint = some l → l.reason.is_consec = true
  lintB_consec : ∀ l, cB.consec_if_else_lint = some l → l.reason.is_consec = true

/-- Invariant between the low-threshold (`vA`) and high-threshold (`vB`)
traversal states. -/
structure Inv (vA vB : Visitor) : Prop where
  ctxs : List.Forall₂ CtxRel vA.contexts vB.contexts
  cur_eq : vA.current_nesting_lint = vB.current_nesting_lint
  cur_depth : ∀ l, vA.current_nesting_lint = some l → l.reason.is_consec = false
  fn_eq : vA.inside_fn = vB.inside_fn
  cnt : countConsec vB.lints ≤ countConsec vA.lints

/-!  Basic facts about the stack operations. -/

theorem push_context_contexts (cfg : Config) (k : ContextKind) (sp : Nat) (v : Visitor) :
    (push_context cfg k sp v).contexts = v.contexts ++ [Context.new k sp] := by
  simp only [push_context]
  split <;> rfl

theorem push_context_lints (cfg : Config) (k : ContextKind) (sp : Nat) (v : Visitor) :
    (push_context cfg k sp v).lints = v.lints := by
  simp only [push_context]
  split <;> rfl

theorem getLast?_updateLast (f : Context → Context) :
    ∀ l : List Context, (updateLast f l).getLast? = l.getLast?.map f
  | [] => rfl
  | [_] => rfl
  | a :: b :: rest => by
    have ih := getLast?_updateLast f (b :: rest)
    obtain ⟨c, t, hct⟩ : ∃ c t, updateLast f (b :: rest) = c :: t := by
      cases rest <;> exact ⟨_, _, rfl⟩
    show (a :: updateLast f (b :: rest)).getLast? = (a :: b :: rest).getLast?.map f
    rw [hct, List.getLast?_cons_cons, ← hct, ih, List.getLast?_cons_cons]

theorem reset_if_else_lints (v : Visitor) : (reset_if_else v).lints = v.lints := rfl

theorem pop_flush_consec_cur (v : Visitor) :
    (pop_flush_consec v).current_nesting_lint = v.current_nesting_lint := by
  unfold pop_flush_consec
  split
  · rfl
  · split <;> rfl

theorem pop_flush_consec_contexts (v : Visitor) :
    (pop_flush_consec v).contexts = v.contexts.dropLast := by
  unfold pop_flush_consec
  split
  · rename_i hl
    rw [List.getLast?_eq_none_iff.mp hl]
    rfl
  · split <;> rfl

theorem pop_flush_consec_lints (v : Visitor) :
    ∃ e, (pop_flush_consec v).lints = v.lints ++ e := by
  unfold pop_flush_consec
  split
  · exact ⟨[], by simp⟩
  · split
    · exact ⟨[_], rfl⟩
    · exact ⟨[], by simp⟩

theorem flush_nesting_contexts (cfg : Config) (d : Nat) (v : Visitor) :
    (flush_nesting cfg d v).contexts = v.contexts := by
  unfold flush_nesting
  split
  · split <;> rfl
  · rfl

theorem flush_nesting_lints (cfg : Config) (d : Nat) (v : Visitor) :
    ∃ e, (flush_nesting cfg d v).lints = v.lints ++ e := by
  unfold flush_nesting
  split
  · split
    · exact ⟨[_], rfl⟩
    · exact ⟨[], by simp⟩
  · exact ⟨[], by simp⟩

theorem reset_if_else_top (v : Visitor) (c : Context) (h : v.contexts.getLast? = some c) :
    (reset_if_else v).contexts.getLast? =
      some { c with
        consec_if_else_span := none
        consec_if_else_count := 0
        consec_if_else_lint := none } := by
  show (updateLast _ v.contexts).getLast? = _
  rw [getLast?_updateLast, h, Option.map_some']

/-!  Transport of `CtxRel`/`Forall₂` along the list operations the stack
uses. -/

theorem CtxRel.new_self (k : ContextKind) (sp : Nat) :
    CtxRel (Context.new k sp) (Context.new k sp) :=
  ⟨rfl, rfl, rfl, rfl, fun h => h, fun _ h => by simp [Context.new] at h,
    fun _ h => by simp [Context.new] at h⟩

theorem forall2_concat :
    ∀ {l l' : List Context}, List.Forall₂ CtxRel l l' → ∀ {a b}, CtxRel a b →
      List.Forall₂ CtxRel (l ++ [a]) (l' ++ [b]) := by
  intro l l' h
  induction h with
  | nil => exact fun hab => .cons hab .nil
  | cons hxy _ ih => exact fun hab => .cons hxy (ih hab)

theorem forall2_dropLast :
    ∀ {l l' : List Context}, List.Forall₂ CtxRel l l' →
      List.Forall₂ CtxRel l.dropLast l'.dropLast := by
  intro l l' h
  induction h with
  | nil => exact .nil
  | cons hxy ht ih =>
    cases ht with
    | nil => exact .nil
    | cons hcd hu =>
      exact .cons hxy ih

theorem forall2_getLast? :
    ∀ {l l' : List Context}, List.Forall₂ CtxRel l l' →
      (l.getLast? = none ∧ l'.getLast? = none) ∨
      ∃ a b, l.getLast? = some a ∧ l'.getLast? = some b ∧ CtxRel a b := by
  intro l l' h
  induction h with
  | nil => exact .inl ⟨rfl, rfl⟩
  | cons hxy ht ih =>
    cases ht with
    | nil => exact .inr ⟨_, _, rfl, rfl, hxy⟩
    | cons hcd hu =>
      rcases ih with ⟨h1, _⟩ | ⟨a, b, h1, h2, hab⟩
      · simp at h1
      · exact .inr ⟨a, b, by rw [List.getLast?_cons_cons]; exact h1,
          by rw [List.getLast?_cons_cons]; exact h2, hab⟩

theorem forall2_get1_span :
    ∀ {l l' : List Context}, List.Forall₂ CtxRel l l' →
      (l[1]?).map (·.span) = (l'[1]?).map (·.span) := by
  intro l l' h
  cases h with
  | nil => rfl
  | cons hxy ht =>
    cases ht with
    | nil => rfl
    | cons hcd hu => simp [hcd.span_eq]

theorem forall2_updateLast {f g : Context → Context}
    (hfg : ∀ a b, CtxRel a b → CtxRel (f a) (g b)) :
    ∀ {l l' : List Context}, List.Forall₂ CtxRel l l' →
      List.Forall₂ CtxRel (updateLast f l) (updateLast g l') := by
  intro l l' h
  induction h with
  | nil => exact .nil
  | cons hxy ht ih =>
    cases ht with
    | nil => exact .cons (hfg _ _ hxy) .nil
    | cons hcd hu =>
      exact .cons hxy ih

theorem countConsec_append (ls : List Lint) (l : Lint) :
    countConsec (ls ++ [l]) = countConsec ls + (if l.reason.is_consec then 1 else 0) := by
  simp only [countConsec, List.filter_append]
  split <;> simp_all

/-!  The invariant `Inv` is preserved by each primitive stack operation
when the two configurations agree on `max_depth` and side `A` has the
lower `max_consec_if_else`. -/

theorem inv_reset {vA vB : Visitor} (h : Inv vA vB) :
    Inv (reset_if_else vA) (reset_if_else vB) := by
  refine ⟨forall2_updateLast ?_ h.ctxs, h.cur_eq, h.cur_depth, h.fn_eq, h.cnt⟩
  intro a b hab
  exact ⟨hab.span_eq, hab.kind_eq, rfl, rfl, fun hh => by simp at hh,
    fun _ hh => by simp at hh, fun _ hh => by simp at hh⟩

theorem inv_inc {cfgA cfgB : Config}
    (hmc : cfgA.max_consec_if_else ≤ cfgB.max_consec_if_else)
    (sp : Nat) {vA vB : Visitor} (h : Inv vA vB) :
    Inv (inc_if_else cfgA sp vA) (inc_if_else cfgB sp vB) := by
  rcases forall2_getLast? h.ctxs with ⟨hA, hB⟩ | ⟨a, b, hA, hB, hab⟩
  · simp only [inc_if_else, hA, hB]
    exact h
  · simp only [inc_if_else, hA, hB]
    refine ⟨forall2_updateLast ?_ h.ctxs, h.cur_eq, h.cur_depth, h.fn_eq, h.cnt⟩
    intro x y hxy
    have hc := hab.count_eq
    refine ⟨hxy.span_eq, hxy.kind_eq, by rw [hc], by rw [hab.cspan_eq], ?_, ?_, ?_⟩
    · split_ifs with h1 h2
      · simp
      · exfalso
        omega
      · intro _
        simp
      · exact hab.lint_imp
    · split_ifs with h1
      · intro l hl
        simp only [Option.some.injEq] at hl
        subst hl
        rfl
      · exact hab.lintA_consec
    · split_ifs with h1
      · intro l hl
        simp only [Option.some.injEq] at hl
        subst hl
        rfl
      · exact hab.lintB_consec

theorem inv_push {cfgA cfgB : Config} (hma : cfgA.max_depth = cfgB.max_depth)
    (k : ContextKind) (sp : Nat) {vA vB : Visitor} (h : Inv vA vB) :
    Inv (push_context cfgA k sp vA) (push_context cfgB k sp vB) := by
  have hlen := h.ctxs.length_eq
  have hctx := forall2_concat h.ctxs (CtxRel.new_self k sp)
  have hspan1 := forall2_get1_span hctx
  have hd : (vA.contexts ++ [Context.new k sp]).length - 1 =
      (vB.contexts ++ [Context.new k sp]).length - 1 := by
    simp [hlen]
  simp only [push_context, depth]
  by_cases hc : (vA.contexts ++ [Context.new k sp]).length - 1 ≤ cfgA.max_depth
  · have hcB : (vB.contexts ++ [Context.new k sp]).length - 1 ≤ cfgB.max_depth := by
      rw [← hd, ← hma]
      exact hc
    rw [if_pos hc, if_pos hcB]
    exact ⟨hctx, h.cur_eq, h.cur_depth, h.fn_eq, h.cnt⟩
  · have hcB : ¬ (vB.contexts ++ [Context.new k sp]).length - 1 ≤ cfgB.max_depth := by
      rw [← hd, ← hma]
      exact hc
    rw [if_neg hc, if_neg hcB]
    refine ⟨hctx, ?_, ?_, h.fn_eq, h.cnt⟩
    · rw [h.cur_eq, hspan1, hd]
    · intro l hl
      simp only [Option.some.injEq] at hl
      subst hl
      rfl

theorem inv_pop_flush_consec {vA vB : Visitor} (h : Inv vA vB) :
    Inv (pop_flush_consec vA) (pop_flush_consec vB) := by
  rcases forall2_getLast? h.ctxs with ⟨hA, hB⟩ | ⟨a, b, hA, hB, hab⟩
  · simp only [pop_flush_consec, hA, hB]
    exact h
  · have hctx' := forall2_dropLast h.ctxs
    simp only [pop_flush_consec, hA, hB]
    cases hla : a.consec_if_else_lint with
    | none =>
      cases hlb : b.consec_if_else_lint with
      | none =>
        exact ⟨hctx', h.cur_eq, h.cur_depth, h.fn_eq, h.cnt⟩
      | some lb =>
        exfalso
        have hs := hab.lint_imp (by rw [hlb]; rfl)
        rw [hla] at hs
        cases hs
    | some la =>
      have hlaC := hab.lintA_consec la hla
      cases hlb : b.consec_if_else_lint with
      | none =>
        refine ⟨hctx', h.cur_eq, h.cur_depth, h.fn_eq, ?_⟩
        rw [countConsec_append, hlaC]
        have := h.cnt
        simp
        omega
      | some lb =>
        refine ⟨hctx', h.cur_eq, h.cur_depth, h.fn_eq, ?_⟩
        rw [countConsec_append, countConsec_append, hlaC, hab.lintB_consec lb hlb]
        have := h.cnt
        simp
        omega

theorem inv_flush_nesting {cfgA cfgB : Config} (hma : cfgA.max_depth = cfgB.max_depth)
    (dA dB : Nat) (hd : dA = dB) {vA vB : Visitor} (h : Inv vA vB) :
    Inv (flush_nesting cfgA dA vA) (flush_nesting cfgB dB vB) := by
  subst hd
  by_cases hc : dA ≤ cfgA.max_depth
  · have hcB : dA ≤ cfgB.max_depth := hma ▸ hc
    rw [flush_nesting, flush_nesting, if_pos hc, if_pos hcB]
    have hcurB : vB.current_nesting_lint = vA.current_nesting_lint := h.cur_eq.symm
    cases hcur : vA.current_nesting_lint with
    | none =>
      rw [hcur] at hcurB
      rw [hcurB]
      exact h
    | some l =>
      rw [hcur] at hcurB
      rw [hcurB]
      refine ⟨h.ctxs, rfl, (by intro _ hl; cases hl), h.fn_eq, ?_⟩
      rw [countConsec_append, countConsec_append, h.cur_depth l hcur]
      have := h.cnt
      simp
      omega
  · have hcB : ¬ dA ≤ cfgB.max_depth := hma ▸ hc
    rw [flush_nesting, flush_nesting, if_neg hc, if_neg hcB]
    exact h

theorem inv_pop {cfgA cfgB : Config} (hma : cfgA.max_depth = cfgB.max_depth)
    {vA vB : Visitor} (h : Inv vA vB) :
    Inv (pop_context cfgA vA) (pop_context cfgB vB) := by
  have hdep : depth vA = depth vB := by
    simp [depth, h.ctxs.length_eq]
  exact inv_flush_nesting hma _ _ hdep (inv_pop_flush_consec h)

theorem inv_set_fn {vA vB : Visitor} (h : Inv vA vB) (x : Bool) :
    Inv { vA with inside_fn := x } { vB with inside_fn := x } :=
  ⟨h.ctxs, h.cur_eq, h.cur_depth, rfl, h.cnt⟩

/-!  One-step unfolding equations for the traversal, per constructor. -/

theorem visitExpr_letE (cfg : Config) (excl : Nat → Bool) (v : Visitor) (sub : Expr) (sp : Nat) :
    visitExpr cfg excl v (.letE sub sp) =
      if excl sp then v else
        pop_context cfg (visitExpr cfg excl (push_context cfg .Let sp (reset_if_else v)) sub) := by
  rw [visitExpr.eq_def]
  rfl

theorem visitExpr_ifE (cfg : Config) (excl : Nat → Bool) (v : Visitor)
    (thenB : Block) (els : OptExpr) (sp : Nat) :
    visitExpr cfg excl v (.ifE thenB els sp) =
      if excl sp then v else
        processElse cfg excl
          (pop_context cfg
            (visitBlock cfg excl (push_context cfg .If sp (inc_if_else cfg sp v)) thenB)) els := by
  rw [visitExpr.eq_def]
  rfl

theorem visitExpr_whileE (cfg : Config) (excl : Nat → Bool) (v : Visitor)
    (cond : Expr) (body : Block) (sp : Nat) :
    visitExpr cfg excl v (.whileE cond body sp) =
      if excl sp then v else
        pop_context cfg
          (visitBlock cfg excl
            (visitExpr cfg excl (push_context cfg .While sp (reset_if_else v)) cond) body) := by
  rw [visitExpr.eq_def]
  rfl

theorem visitExpr_forE (cfg : Config) (excl : Nat → Bool) (v : Visitor)
    (body : Block) (sp : Nat) :
    visitExpr cfg excl v (.forE body sp) =
      if excl sp then v else
        pop_context cfg (visitBlock cfg excl (push_context cfg .For sp (reset_if_else v)) body) := by
  rw [visitExpr.eq_def]
  rfl

theorem visitExpr_loopE (cfg : Config) (excl : Nat → Bool) (v : Visitor)
    (body : Block) (sp : Nat) :
    visitExpr cfg excl v (.loopE body sp) =
      if excl sp then v else
        pop_context cfg (visitBlock cfg excl (push_context cfg .Loop sp (reset_if_else v)) body) := by
  rw [visitExpr.eq_def]
  rfl

theorem visitExpr_matchE (cfg : Config) (excl : Nat → Bool) (v : Visitor)
    (arms : ExprList) (sp : Nat) :
    visitExpr cfg excl v (.matchE arms sp) =
      if excl sp then v else visitExprs cfg excl (reset_if_else v) arms := by
  rw [visitExpr.eq_def]
  rfl

theorem visitExpr_closureE (cfg : Config) (excl : Nat → Bool) (v : Visitor)
    (body : Expr) (sp : Nat) :
    visitExpr cfg excl v (.closureE body sp) =
      if excl sp then v else visitExpr cfg excl (reset_if_else v) body := by
  rw [visitExpr.eq_def]
  rfl

theorem visitExpr_blockE (cfg : Config) (excl : Nat → Bool) (v : Visitor)
    (b : Block) (sp : Nat) :
    visitExpr cfg excl v (.blockE b sp) =
      if excl sp then v else
        if (reset_if_else v).inside_fn then
          pop_context cfg
            (visitBlock cfg excl (push_context cfg .Block b.span (reset_if_else v)) b)
        else visitBlock cfg excl (reset_if_else v) b := by
  rw [visitExpr.eq_def]
  rfl

theorem visitExpr_genE (cfg : Config) (excl : Nat → Bool) (v : Visitor)
    (b : Block) (sp : Nat) :
    visitExpr cfg excl v (.genE b sp) =
      if excl sp then v else visitBlock cfg excl (reset_if_else v) b := by
  rw [visitExpr.eq_def]
  rfl

theorem visitExpr_tryE (cfg : Config) (excl : Nat → Bool) (v : Visitor)
    (b : Block) (sp : Nat) :
    visitExpr cfg excl v (.tryE b sp) =
      if excl sp then v else visitBlock cfg excl (reset_if_else v) b := by
  rw [visitExpr.eq_def]
  rfl

theorem visitExpr_callE (cfg : Config) (excl : Nat → Bool) (v : Visitor)
    (args : ExprList) (sp : Nat) :
    visitExpr cfg excl v (.callE args sp) =
      if excl sp then v else visitExprs cfg excl (reset_if_else v) args := by
  rw [visitExpr.eq_def]
  rfl

theorem visitExpr_otherE (cfg : Config) (excl : Nat → Bool) (v : Visitor) (sp : Nat) :
    visitExpr cfg excl v (.otherE sp) =
      if excl sp then v else reset_if_else v := by
  rw [visitExpr.eq_def]
  rfl

theorem visitExpr_excl (cfg : Config) (excl : Nat → Bool) (v : Visitor) (e : Expr)
    (hx : excl e.span = true) : visitExpr cfg excl v e = v := by
  rw [visitExpr.eq_def, if_pos hx]

theorem visitExprs_nil (cfg : Config) (excl : Nat → Bool) (v : Visitor) :
    visitExprs cfg excl v .nilE = v := by
  rw [visitExprs.eq_def]

theorem visitExprs_cons (cfg : Config) (excl : Nat → Bool) (v : Visitor)
    (e : Expr) (rest : ExprList) :
    visitExprs cfg excl v (.consE e rest) =
      visitExprs cfg excl (visitExpr cfg excl v e) rest := by
  rw [visitExprs.eq_def]

theorem processElse_none (cfg : Config) (excl : Nat → Bool) (v : Visitor) :
    processElse cfg excl v .noneE = v := by
  rw [processElse.eq_def]

theorem processElse_some (cfg : Config) (excl : Nat → Bool) (v : Visitor) (e : Expr) :
    processElse cfg excl v (.someE e) = processIf cfg excl v e := by
  rw [processElse.eq_def]

theorem processIf_ifE (cfg : Config) (excl : Nat → Bool) (v : Visitor)
    (thenB : Block) (els : OptExpr) (sp : Nat) :
    processIf cfg excl v (.ifE thenB els sp) =
      processElse cfg excl
        (pop_context cfg
          (visitBlock cfg excl (push_context cfg .If sp (inc_if_else cfg sp v)) thenB)) els := by
  rw [processIf.eq_def]
  rfl

theorem processIf_blockE (cfg : Config) (excl : Nat → Bool) (v : Visitor)
    (b : Block) (sp : Nat) :
    processIf cfg excl v (.blockE b sp) =
      pop_context cfg
        (visitBlock cfg excl (push_context cfg .Else b.span (inc_if_else cfg sp v)) b) := by
  rw [processIf.eq_def]
  rfl

theorem processIf_default (cfg : Config) (excl : Nat → Bool) (v : Visitor) (e : Expr)
    (h1 : ∀ thenB els sp, e ≠ .ifE thenB els sp) (h2 : ∀ b sp, e ≠ .blockE b sp) :
    processIf cfg excl v e = inc_if_else cfg e.span v := by
  rw [processIf.eq_def]
  cases e with
  | ifE thenB els sp => exact absurd rfl (h1 thenB els sp)
  | blockE b sp => exact absurd rfl (h2 b sp)
  | _ => rfl

theorem visitBlock_mk (cfg : Config) (excl : Nat → Bool) (v : Visitor)
    (stmts : StmtList) (sp : Nat) :
    visitBlock cfg excl v (.mk stmts sp) = visitStmts cfg excl v stmts := by
  rw [visitBlock.eq_def]

theorem visitStmts_nil (cfg : Config) (excl : Nat → Bool) (v : Visitor) :
    visitStmts cfg excl v .nilS = v := by
  rw [visitStmts.eq_def]

theorem visitStmts_cons (cfg : Config) (excl : Nat → Bool) (v : Visitor)
    (s : Stmt) (rest : StmtList) :
    visitStmts cfg excl v (.consS s rest) =
      visitStmts cfg excl (visitStmt cfg excl v s) rest := by
  rw [visitStmts.eq_def]

theorem visitStmt_letDecl (cfg : Config) (excl : Nat → Bool) (v : Visitor) :
    visitStmt cfg excl v .letDecl = v := by
  rw [visitStmt.eq_def]

theorem visitStmt_letInit (cfg : Config) (excl : Nat → Bool) (v : Visitor) (e : Expr) :
    visitStmt cfg excl v (.letInit e) = visitExpr cfg excl v e := by
  rw [visitStmt.eq_def]

theorem visitStmt_letInitElse (cfg : Config) (excl : Nat → Bool) (v : Visitor)
    (e : Expr) (b : Block) :
    visitStmt cfg excl v (.letInitElse e b) =
      visitBlock cfg excl (visitExpr cfg excl v e) b := by
  rw [visitStmt.eq_def]

theorem visitStmt_itemS (cfg : Config) (excl : Nat → Bool) (v : Visitor) (it : Item) :
    visitStmt cfg excl v (.itemS it) = visitItem cfg excl v it := by
  rw [visitStmt.eq_def]

theorem visitStmt_exprS (cfg : Config) (excl : Nat → Bool) (v : Visitor) (e : Expr) :
    visitStmt cfg excl v (.exprS e) = visitExpr cfg excl v e := by
  rw [visitStmt.eq_def]

theorem visitStmt_semiS (cfg : Config) (excl : Nat → Bool) (v : Visitor) (e : Expr) :
    visitStmt cfg excl v (.semiS e) = visitExpr cfg excl v e := by
  rw [visitStmt.eq_def]

theorem visitStmt_otherS (cfg : Config) (excl : Nat → Bool) (v : Visitor) :
    visitStmt cfg excl v .otherS = v := by
  rw [visitStmt.eq_def]

set_option maxHeartbeats 2000000 in
theorem visitItem_staticI_none (cfg : Config) (excl : Nat → Bool) (v : Visitor) (sp : Nat) :
    visitItem cfg excl v (.staticI .noneE sp) = v := by
  rw [visitItem.eq_def]
  split <;> rfl

theorem visitItem_staticI_some (cfg : Config) (excl : Nat → Bool) (v : Visitor)
    (e : Expr) (sp : Nat) :
    visitItem cfg excl v (.staticI (.someE e) sp) =
      if excl sp then v else
        pop_context cfg (visitExpr cfg excl (push_context cfg .Static sp v) e) := by
  rw [visitItem.eq_def]
  rfl

theorem visitItem_fnI (cfg : Config) (excl : Nat → Bool) (v : Visitor)
    (f : FnDef) (sp : Nat) :
    visitItem cfg excl v (.fnI f sp) =
      if excl sp then v else
        pop_context cfg (processFn cfg excl (push_context cfg .Func sp v) f sp) := by
  rw [visitItem.eq_def]
  rfl

theorem visitItem_modI (cfg : Config) (excl : Nat → Bool) (v : Visitor)
    (items : ItemList) (sp : Nat) :
    visitItem cfg excl v (.modI items sp) =
      if excl sp then v else
        pop_context cfg (visitItems cfg excl (push_context cfg .Mod sp v) items) := by
  rw [visitItem.eq_def]
  rfl

theorem visitItem_traitI (cfg : Config) (excl : Nat → Bool) (v : Visitor)
    (fns : FnList) (sp : Nat) :
    visitItem cfg excl v (.traitI fns sp) =
      if excl sp then v else
        pop_context cfg (visitFns cfg excl (push_context cfg .Trait sp v) fns) := by
  rw [visitItem.eq_def]
  rfl

theorem visitItem_implI (cfg : Config) (excl : Nat → Bool) (v : Visitor)
    (fns : FnList) (sp : Nat) :
    visitItem cfg excl v (.implI fns sp) =
      if excl sp then v else
        pop_context cfg (visitFns cfg excl (push_context cfg .Impl sp v) fns) := by
  rw [visitItem.eq_def]
  rfl

theorem visitItem_otherI (cfg : Config) (excl : Nat → Bool) (v : Visitor) (sp : Nat) :
    visitItem cfg excl v (.otherI sp) = v := by
  rw [visitItem.eq_def]
  split <;> rfl

theorem visitItem_excl (cfg : Config) (excl : Nat → Bool) (v : Visitor) :
    ∀ it : Item, excl it.span = true → visitItem cfg excl v it = v := by
  intro it hx
  rw [visitItem.eq_def, if_pos hx]

theorem visitItems_nil (cfg : Config) (excl : Nat → Bool) (v : Visitor) :
    visitItems cfg excl v .nilI = v := by
  rw [visitItems.eq_def]

theorem visitItems_cons (cfg : Config) (excl : Nat → Bool) (v : Visitor)
    (it : Item) (rest : ItemList) :
    visitItems cfg excl v (.consI it rest) =
      visitItems cfg excl (visitItem cfg excl v it) rest := by
  rw [visitItems.eq_def]

theorem visitFns_nil (cfg : Config) (excl : Nat → Bool) (v : Visitor) :
    visitFns cfg excl v .nilF = v := by
  rw [visitFns.eq_def]

theorem visitFns_cons (cfg : Config) (excl : Nat → Bool) (v : Visitor)
    (f : FnDef) (sp : Nat) (rest : FnList) :
    visitFns cfg excl v (.consF f sp rest) =
      visitFns cfg excl (processFn cfg excl v f sp) rest := by
  rw [visitFns.eq_def]

theorem processFn_none (cfg : Config) (excl : Nat → Bool) (v : Visitor) (sp : Nat) :
    processFn cfg excl v (.mk .noneB) sp = v := by
  rw [processFn.eq_def]

theorem processFn_some (cfg : Config) (excl : Nat → Bool) (v : Visitor)
    (body : Block) (sp : Nat) :
    processFn cfg excl v (.mk (.someB body)) sp =
      { pop_context cfg
          (visitBlock cfg excl
            { (if v.inside_fn then push_context cfg .Func sp v else v) with inside_fn := true }
            body) with inside_fn := v.inside_fn } := by
  rw [processFn.eq_def]

/-!  The invariant is preserved by the whole traversal: two runs over the
same tree whose configurations agree on `max_depth`, side `A` having the
lower `max_consec_if_else`, stay related. -/

mutual

theorem invExpr {cfgA cfgB : Config} (hma : cfgA.max_depth = cfgB.max_depth)
    (hmc : cfgA.max_consec_if_else ≤ cfgB.max_consec_if_else) (excl : Nat → Bool) :
    ∀ (e : Expr) (vA vB : Visitor), Inv vA vB →
      Inv (visitExpr cfgA excl vA e) (visitExpr cfgB excl vB e)
  | .letE sub sp, vA, vB, h => by
    rw [visitExpr_letE, visitExpr_letE]
    by_cases hx : excl sp = true
    · rw [if_pos hx, if_pos hx]
      exact h
    · rw [if_neg hx, if_neg hx]
      exact inv_pop hma (invExpr hma hmc excl sub _ _ (inv_push hma .Let sp (inv_reset h)))
  | .ifE thenB els sp, vA, vB, h => by
    rw [visitExpr_ifE, visitExpr_ifE]
    by_cases hx : excl sp = true
    · rw [if_pos hx, if_pos hx]
      exact h
    · rw [if_neg hx, if_neg hx]
      exact invProcessElse hma hmc excl els _ _
        (inv_pop hma (invBlock hma hmc excl thenB _ _
          (inv_push hma .If sp (inv_inc hmc sp h))))
  | .whileE cond body sp, vA, vB, h => by
    rw [visitExpr_whileE, visitExpr_whileE]
    by_cases hx : excl sp = true
    · rw [if_pos hx, if_pos hx]
      exact h
    · rw [if_neg hx, if_neg hx]
      exact inv_pop hma (invBlock hma hmc excl body _ _
        (invExpr hma hmc excl cond _ _ (inv_push hma .While sp (inv_reset h))))
  | .forE body sp, vA, vB, h => by
    rw [visitExpr_forE, visitExpr_forE]
    by_cases hx : excl sp = true
    · rw [if_pos hx, if_pos hx]
      exact h
    · rw [if_neg hx, if_neg hx]
      exact inv_pop hma (invBlock hma hmc excl body _ _
        (inv_push hma .For sp (inv_reset h)))
  | .loopE body sp, vA, vB, h => by
    rw [visitExpr_loopE, visitExpr_loopE]
    by_cases hx : excl sp = true
    · rw [if_pos hx, if_pos hx]
      exact h
    · rw [if_neg hx, if_neg hx]
      exact inv_pop hma (invBlock hma hmc excl body _ _
        (inv_push hma .Loop sp (inv_reset h)))
  | .matchE arms sp, vA, vB, h => by
    rw [visitExpr_matchE, visitExpr_matchE]
    by_cases hx : excl sp = true
    · rw [if_pos hx, if_pos hx]
      exact h
    · rw [if_neg hx, if_neg hx]
      exact invExprs hma hmc excl arms _ _ (inv_reset h)
  | .closureE body sp, vA, vB, h => by
    rw [visitExpr_closureE, visitExpr_closureE]
    by_cases hx : excl sp = true
    · rw [if_pos hx, if_pos hx]
      exact h
    · rw [if_neg hx, if_neg hx]
      exact invExpr hma hmc excl body _ _ (inv_reset h)
  | .blockE b sp, vA, vB, h => by
    rw [visitExpr_blockE, visitExpr_blockE]
    by_cases hx : excl sp = true
    · rw [if_pos hx, if_pos hx]
      exact h
    · rw [if_neg hx, if_neg hx]
      have hf : (reset_if_else vB).inside_fn = (reset_if_else vA).inside_fn :=
        ((inv_reset h).fn_eq).symm
      by_cases hb : (reset_if_else vA).inside_fn = true
      · rw [if_pos hb, if_pos (hf.trans hb)]
        exact inv_pop hma (invBlock hma hmc excl b _ _
          (inv_push hma .Block b.span (inv_reset h)))
      · have hb' : ¬ (reset_if_else vB).inside_fn = true := by
          rw [hf]
          exact hb
        rw [if_neg hb, if_neg hb']
        exact invBlock hma hmc excl b _ _ (inv_reset h)
  | .genE b sp, vA, vB, h => by
    rw [visitExpr_genE, visitExpr_genE]
    by_cases hx : excl sp = true
    · rw [if_pos hx, if_pos hx]
      exact h
    · rw [if_neg hx, if_neg hx]
      exact invBlock hma hmc excl b _ _ (inv_reset h)
  | .tryE b sp, vA, vB, h => by
    rw [visitExpr_tryE, visitExpr_tryE]
    by_cases hx : excl sp = true
    · rw [if_pos hx, if_pos hx]
      exact h
    · rw [if_neg hx, if_neg hx]
      exact invBlock hma hmc excl b _ _ (inv_reset h)
  | .callE args sp, vA, vB, h => by
    rw [visitExpr_callE, visitExpr_callE]
    by_cases hx : excl sp = true
    · rw [if_pos hx, if_pos hx]
      exact h
    · rw [if_neg hx, if_neg hx]
      exact invExprs hma hmc excl args _ _ (inv_reset h)
  | .otherE sp, vA, vB, h => by
    rw [visitExpr_otherE, visitExpr_otherE]
    by_cases hx : excl sp = true
    · rw [if_pos hx, if_pos hx]
      exact h
    · rw [if_neg hx, if_neg hx]
      exact inv_reset h

theorem invExprs {cfgA cfgB : Config} (hma : cfgA.max_depth = cfgB.max_depth)
    (hmc : cfgA.max_consec_if_else ≤ cfgB.max_consec_if_else) (excl : Nat → Bool) :
    ∀ (es : ExprList) (vA vB : Visitor), Inv vA vB →
      Inv (visitExprs cfgA excl vA es) (visitExprs cfgB excl vB es)
  | .nilE, vA, vB, h => by
    rw [visitExprs_nil, visitExprs_nil]
    exact h
  | .consE e rest, vA, vB, h => by
    rw [visitExprs_cons, visitExprs_cons]
    exact invExprs hma hmc excl rest _ _ (invExpr hma hmc excl e _ _ h)

theorem invProcessElse {cfgA cfgB : Config} (hma : cfgA.max_depth = cfgB.max_depth)
    (hmc : cfgA.max_consec_if_else ≤ cfgB.max_consec_if_else) (excl : Nat → Bool) :
    ∀ (els : OptExpr) (vA vB : Visitor), Inv vA vB →
      Inv (processElse cfgA excl vA els) (processElse cfgB excl vB els)
  | .noneE, vA, vB, h => by
    rw [processElse_none, processElse_none]
    exact h
  | .someE e, vA, vB, h => by
    rw [processElse_some, processElse_some]
    exact invProcessIf hma hmc excl e _ _ h

theorem invProcessIf {cfgA cfgB : Config} (hma : cfgA.max_depth = cfgB.max_depth)
    (hmc : cfgA.max_consec_if_else ≤ cfgB.max_consec_if_else) (excl : Nat → Bool) :
    ∀ (e : Expr) (vA vB : Visitor), Inv vA vB →
      Inv (processIf cfgA excl vA e) (processIf cfgB excl vB e)
  | .ifE thenB els sp, vA, vB, h => by
    rw [processIf_ifE, processIf_ifE]
    exact invProcessElse hma hmc excl els _ _
      (inv_pop hma (invBlock hma hmc excl thenB _ _
        (inv_push hma .If sp (inv_inc hmc sp h))))
  | .blockE b sp, vA, vB, h => by
    rw [processIf_blockE, processIf_blockE]
    exact inv_pop hma (invBlock hma hmc excl b _ _
      (inv_push hma .Else b.span (inv_inc hmc sp h)))
  | .letE sub sp, vA, vB, h => by
    rw [processIf_default _ _ _ _ (by intro _ _ _ hh; cases hh) (by intro _ _ hh; cases hh),
      processIf_default _ _ _ _ (by intro _ _ _ hh; cases hh) (by intro _ _ hh; cases hh)]
    exact inv_inc hmc _ h
  | .whileE cond body sp, vA, vB, h => by
    rw [processIf_default _ _ _ _ (by intro _ _ _ hh; cases hh) (by intro _ _ hh; cases hh),
      processIf_default _ _ _ _ (by intro _ _ _ hh; cases hh) (by intro _ _ hh; cases hh)]
    exact inv_inc hmc _ h
  | .forE body sp, vA, vB, h => by
    rw [processIf_default _ _ _ _ (by intro _ _ _ hh; cases hh) (by intro _ _ hh; cases hh),
      processIf_default _ _ _ _ (by intro _ _ _ hh; cases hh) (by intro _ _ hh; cases hh)]
    exact inv_inc hmc _ h
  | .loopE body sp, vA, vB, h => by
    rw [processIf_default _ _ _ _ (by intro _ _ _ hh; cases hh) (by intro _ _ hh; cases hh),
      processIf_default _ _ _ _ (by intro _ _ _ hh; cases hh) (by intro _ _ hh; cases hh)]
    exact inv_inc hmc _ h
  | .matchE arms sp, vA, vB, h => by
    rw [processIf_default _ _ _ _ (by intro _ _ _ hh; cases hh) (by intro _ _ hh; cases hh),
      processIf_default _ _ _ _ (by intro _ _ _ hh; cases hh) (by intro _ _ hh; cases hh)]
    exact inv_inc hmc _ h
  | .closureE body sp, vA, vB, h => by
    rw [processIf_default _ _ _ _ (by intro _ _ _ hh; cases hh) (by intro _ _ hh; cases hh),
      processIf_default _ _ _ _ (by intro _ _ _ hh; cases hh) (by intro _ _ hh; cases hh)]
    exact inv_inc hmc _ h
  | .genE b sp, vA, vB, h => by
    rw [processIf_default _ _ _ _ (by intro _ _ _ hh; cases hh) (by intro _ _ hh; cases hh),
      processIf_default _ _ _ _ (by intro _ _ _ hh; cases hh) (by intro _ _ hh; cases hh)]
    exact inv_inc hmc _ h
  | .tryE b sp, vA, vB, h => by
    rw [processIf_default _ _ _ _ (by intro _ _ _ hh; cases hh) (by intro _ _ hh; cases hh),
      processIf_default _ _ _ _ (by intro _ _ _ hh; cases hh) (by intro _ _ hh; cases hh)]
    exact inv_inc hmc _ h
  | .callE args sp, vA, vB, h => by
    rw [processIf_default _ _ _ _ (by intro _ _ _ hh; cases hh) (by intro _ _ hh; cases hh),
      processIf_default _ _ _ _ (by intro _ _ _ hh; cases hh) (by intro _ _ hh; cases hh)]
    exact inv_inc hmc _ h
  | .otherE sp, vA, vB, h => by
    rw [processIf_default _ _ _ _ (by intro _ _ _ hh; cases hh) (by intro _ _ hh; cases hh),
      processIf_default _ _ _ _ (by intro _ _ _ hh; cases hh) (by intro _ _ hh; cases hh)]
    exact inv_inc hmc _ h

theorem invBlock {cfgA cfgB : Config} (hma : cfgA.max_depth = cfgB.max_depth)
    (hmc : cfgA.max_consec_if_else ≤ cfgB.max_consec_if_else) (excl : Nat → Bool) :
    ∀ (b : Block) (vA vB : Visitor), Inv vA vB →
      Inv (visitBlock cfgA excl vA b) (visitBlock cfgB excl vB b)
  | .mk stmts sp, vA, vB, h => by
    rw [visitBlock_mk, visitBlock_mk]
    exact invStmts hma hmc excl stmts _ _ h

theorem invStmts {cfgA cfgB : Config} (hma : cfgA.max_depth = cfgB.max_depth)
    (hmc : cfgA.max_consec_if_else ≤ cfgB.max_consec_if_else) (excl : Nat → Bool) :
    ∀ (ss : StmtList) (vA vB : Visitor), Inv vA vB →
      Inv (visitStmts cfgA excl vA ss) (visitStmts cfgB excl vB ss)
  | .nilS, vA, vB, h => by
    rw [visitStmts_nil, visitStmts_nil]
    exact h
  | .consS s rest, vA, vB, h => by
    rw [visitStmts_cons, visitStmts_cons]
    exact invStmts hma hmc excl rest _ _ (invStmt hma hmc excl s _ _ h)

theorem invStmt {cfgA cfgB : Config} (hma : cfgA.max_depth = cfgB.max_depth)
    (hmc : cfgA.max_consec_if_else ≤ cfgB.max_consec_if_else) (excl : Nat → Bool) :
    ∀ (s : Stmt) (vA vB : Visitor), Inv vA vB →
      Inv (visitStmt cfgA excl vA s) (visitStmt cfgB excl vB s)
  | .letDecl, vA, vB, h => by
    rw [visitStmt_letDecl, visitStmt_letDecl]
    exact h
  | .letInit e, vA, vB, h => by
    rw [visitStmt_letInit, visitStmt_letInit]
    exact invExpr hma hmc excl e _ _ h
  | .letInitElse e b, vA, vB, h => by
    rw [visitStmt_letInitElse, visitStmt_letInitElse]
    exact invBlock hma hmc excl b _ _ (invExpr hma hmc excl e _ _ h)
  | .itemS it, vA, vB, h => by
    rw [visitStmt_itemS, visitStmt_itemS]
    exact invItem hma hmc excl it _ _ h
  | .exprS e, vA, vB, h => by
    rw [visitStmt_exprS, visitStmt_exprS]
    exact invExpr hma hmc excl e _ _ h
  | .semiS e, vA, vB, h => by
    rw [visitStmt_semiS, visitStmt_semiS]
    exact invExpr hma hmc excl e _ _ h
  | .otherS, vA, vB, h => by
    rw [visitStmt_otherS, visitStmt_otherS]
    exact h

theorem invItem {cfgA cfgB : Config} (hma : cfgA.max_depth = cfgB.max_depth)
    (hmc : cfgA.max_consec_if_else ≤ cfgB.max_consec_if_else) (excl : Nat → Bool) :
    ∀ (it : Item) (vA vB : Visitor), Inv vA vB →
      Inv (visitItem cfgA excl vA it) (visitItem cfgB excl vB it)
  | .staticI .noneE sp, vA, vB, h => by
    rw [visitItem_staticI_none, visitItem_staticI_none]
    exact h
  | .staticI (.someE e) sp, vA, vB, h => by
    rw [visitItem_staticI_some, visitItem_staticI_some]
    by_cases hx : excl sp = true
    · rw [if_pos hx, if_pos hx]
      exact h
    · rw [if_neg hx, if_neg hx]
      exact inv_pop hma (invExpr hma hmc excl e _ _ (inv_push hma .Static sp h))
  | .fnI f sp, vA, vB, h => by
    rw [visitItem_fnI, visitItem_fnI]
    by_cases hx : excl sp = true
    · rw [if_pos hx, if_pos hx]
      exact h
    · rw [if_neg hx, if_neg hx]
      exact inv_pop hma (invProcessFn hma hmc excl f sp _ _ (inv_push hma .Func sp h))
  | .modI items sp, vA, vB, h => by
    rw [visitItem_modI, visitItem_modI]
    by_cases hx : excl sp = true
    · rw [if_pos hx, if_pos hx]
      exact h
    · rw [if_neg hx, if_neg hx]
      exact inv_pop hma (invItems hma hmc excl items _ _ (inv_push hma .Mod sp h))
  | .traitI fns sp, vA, vB, h => by
    rw [visitItem_traitI, visitItem_traitI]
    by_cases hx : excl sp = true
    · rw [if_pos hx, if_pos hx]
      exact h
    · rw [if_neg hx, if_neg hx]
      exact inv_pop hma (invFns hma hmc excl fns _ _ (inv_push hma .Trait sp h))
  | .implI fns sp, vA, vB, h => by
    rw [visitItem_implI, visitItem_implI]
    by_cases hx : excl sp = true
    · rw [if_pos hx, if_pos hx]
      exact h
    · rw [if_neg hx, if_neg hx]
      exact inv_pop hma (invFns hma hmc excl fns _ _ (inv_push hma .Impl sp h))
  | .otherI sp, vA, vB, h => by
    rw [visitItem_otherI, visitItem_otherI]
    exact h

theorem invItems {cfgA cfgB : Config} (hma : cfgA.max_depth = cfgB.max_depth)
    (hmc : cfgA.max_consec_if_else ≤ cfgB.max_consec_if_else) (excl : Nat → Bool) :
    ∀ (its : ItemList) (vA vB : Visitor), Inv vA vB →
      Inv (visitItems cfgA excl vA its) (visitItems cfgB excl vB its)
  | .nilI, vA, vB, h => by
    rw [visitItems_nil, visitItems_nil]
    exact h
  | .consI it rest, vA, vB, h => by
    rw [visitItems_cons, visitItems_cons]
    exact invItems hma hmc excl rest _ _ (invItem hma hmc excl it _ _ h)

theorem invFns {cfgA cfgB : Config} (hma : cfgA.max_depth = cfgB.max_depth)
    (hmc : cfgA.max_consec_if_else ≤ cfgB.max_consec_if_else) (excl : Nat → Bool) :
    ∀ (fns : FnList) (vA vB : Visitor), Inv vA vB →
      Inv (visitFns cfgA excl vA fns) (visitFns cfgB excl vB fns)
  | .nilF, vA, vB, h => by
    rw [visitFns_nil, visitFns_nil]
    exact h
  | .consF f sp rest, vA, vB, h => by
    rw [visitFns_cons, visitFns_cons]
    exact invFns hma hmc excl rest _ _ (invProcessFn hma hmc excl f sp _ _ h)

theorem invProcessFn {cfgA cfgB : Config} (hma : cfgA.max_depth = cfgB.max_depth)
    (hmc : cfgA.max_consec_if_else ≤ cfgB.max_consec_if_else) (excl : Nat → Bool) :
    ∀ (f : FnDef) (sp : Nat) (vA vB : Visitor), Inv vA vB →
      Inv (processFn cfgA excl vA f sp) (processFn cfgB excl vB f sp)
  | .mk .noneB, sp, vA, vB, h => by
    rw [processFn_none, processFn_none]
    exact h
  | .mk (.someB body), sp, vA, vB, h => by
    rw [processFn_some, processFn_some]
    have hfn := h.fn_eq
    rw [← hfn]
    by_cases hf : vA.inside_fn = true
    · rw [if_pos hf, if_pos hf]
      exact inv_set_fn (inv_pop hma (invBlock hma hmc excl body _ _
        (inv_set_fn (inv_push hma .Func sp h) true))) vA.inside_fn
    · rw [if_neg hf, if_neg hf]
      exact inv_set_fn (inv_pop hma (invBlock hma hmc excl body _ _
        (inv_set_fn h true))) vA.inside_fn

end

/-!  Claims. -/

/-- C1, counterexample: at the reachable traversal state with contexts
`[Func, If]` the engine reports depth 1, while the claimed
filtered count (excluding the root, `If` never counting) is 0 — and the
`control_flow` variant also counts the `If` context (`count_depth If =
true`), again contradicting the claim. -/
theorem C1_counterexample :
    depth vFuncIf = 1 ∧
    depth_spec true vFuncIf.contexts = 0 ∧
    depth vFuncIf ≠ depth_spec true vFuncIf.contexts ∧
    CF.ContextKind.count_depth .If = true ∧
    CF.depth [⟨0, .Func⟩, ⟨1, .If⟩] = 1 := by
  refine ⟨by decide, by decide, by decide, rfl, by decide⟩

/-- C1, amended: `depth()` is the total number of contexts on the stack
minus one (saturating), irrespective of kind: pushing any context — an
`If`-dispatch context included — onto a nonempty stack increases the
reported depth by exactly one. -/
theorem C1_depth_counts_every_kind (cfg : Config) (k : ContextKind) (sp : Nat)
    (v : Visitor) (h : v.contexts ≠ []) :
    depth (push_context cfg k sp v) = depth v + 1 := by
  have hp : 0 < v.contexts.length := List.length_pos.mpr h
  simp only [depth, push_context_contexts, List.length_append, List.length_cons,
    List.length_nil]
  omega

/-- C1, witness for the amended theorem at a concrete state. -/
theorem C1_depth_counts_every_kind_witness :
    depth (push_context Config.default .If 1
      (push_context Config.default .Func 0 Visitor.new)) =
      depth (push_context Config.default .Func 0 Visitor.new) + 1 :=
  C1_depth_counts_every_kind Config.default .If 1 _ (by decide)

/-- C2, counterexample: `count_depth` of `context.rs` maps `ElseIf` and
`Else` to `false` (the claim says they count), and the `control_flow`
variant maps `If` to `true` (the claim says `If` never counts). -/
theorem C2_counterexample :
    NDv2.ContextKind.count_depth .ElseIf NDv2.Config.default = false ∧
    NDv2.ContextKind.count_depth .Else NDv2.Config.default = false ∧
    CF.ContextKind.count_depth .If = true :=
  ⟨rfl, rfl, rfl⟩

/-- C2, amended: the per-kind predicate of
`nesting_depth/src/context.rs` is: `If`, `ElseIf` and `Else` never count;
`Then`, `Match`, `Block`, `ExprBlock`, `While`, `For`, `Loop` and `Func`
count; `Closure` counts exactly when `ignore_closures` is false; `Mod`,
`Trait` and `Impl` never count. -/
theorem C2_count_depth_table (cfg : NDv2.Config) :
    NDv2.ContextKind.count_depth .If cfg = false ∧
    NDv2.ContextKind.count_depth .Then cfg = true ∧
    NDv2.ContextKind.count_depth .ElseIf cfg = false ∧
    NDv2.ContextKind.count_depth .Else cfg = false ∧
    NDv2.ContextKind.count_depth .Match cfg = true ∧
    NDv2.ContextKind.count_depth .Block cfg = true ∧
    NDv2.ContextKind.count_depth .ExprBlock cfg = true ∧
    NDv2.ContextKind.count_depth .While cfg = true ∧
    NDv2.ContextKind.count_depth .For cfg = true ∧
    NDv2.ContextKind.count_depth .Loop cfg = true ∧
    NDv2.ContextKind.count_depth .Closure cfg = !cfg.ignore_closures ∧
    NDv2.ContextKind.count_depth .Func cfg = true ∧
    NDv2.ContextKind.count_depth .Mod cfg = false ∧
    NDv2.ContextKind.count_depth .Trait cfg = false ∧
    NDv2.ContextKind.count_depth .Impl cfg = false :=
  ⟨rfl, rfl, rfl, rfl, rfl, rfl, rfl, rfl, rfl, rfl, rfl, rfl, rfl, rfl, rfl⟩

/-- C3, counterexample: after two sibling `if` statements the enclosing
function context's counter is 2, not a fresh 1 per chain; four sibling
`if`s produce a `ConsecIfElse` diagnostic of count 4 at the default
threshold 3 (the claim implies four independent chains of length 1 and no
diagnostic). -/
theorem C3_counterexample :
    ((visitStmts Config.default noExcl vFnTop
        (sl [ifStmt 1, ifStmt 2])).contexts.getLast?.map
      (·.consec_if_else_count)) = some 2 ∧
    ((visitStmts Config.default noExcl vFnTop
        (sl [ifStmt 1, ifStmt 2])).contexts.getLast?.map
      (·.consec_if_else_count)) ≠ some 1 ∧
    check_crate Config.default noExcl treeFourSiblings ≠ [] ∧
    countConsec (check_crate Config.default noExcl treeFourSiblings) = 1 := by
  refine ⟨by decide, by decide, by decide, by decide⟩

/-- C3, amended: sibling `if` statements in the same block share the
enclosing context's consecutive counter; the counter resets only when a
non-`if` expression is visited in that context, and both chained
else-if links and consecutive sibling `if`s accumulate on it.  Two sibling
`if`s reach the shared count 2 and, like a single if/else-if/else chain of
length 3, still produce no diagnostic at the default threshold 3, while
four consecutive sibling `if`s produce one `ConsecIfElse` diagnostic of
count 4. -/
theorem C3_sibling_ifs_share_counter :
    check_crate Config.default noExcl treeTwoSiblings = [] ∧
    ((visitStmts Config.default noExcl vFnTop
        (sl [ifStmt 1, ifStmt 2])).contexts.getLast?.map
      (·.consec_if_else_count)) = some 2 ∧
    check_crate Config.default noExcl treeChain3 = [] ∧
    check_crate Config.default noExcl treeFourSiblings =
      [{ outer_span := some 1, span := 4, kind := .Func,
         reason := .ConsecIfElse 4 }] := by
  refine ⟨by decide, by decide, by decide, by decide⟩

/-- C4, counterexample: with `max_depth = 1`, the depth lint created at
depth 2 in `fn f() { { { } } }` carries `outer_span` 11 — the span of the
context at stack index 1 (the outermost nested block) — whereas the first
context one level past the threshold is the one at index
`max_depth + 1 = 2`, whose span is 12. -/
theorem C4_counterexample :
    check_crate cfgMax1 noExcl treeTwoBlocks =
      [{ outer_span := some 11, span := 12, kind := .Block, reason := .Depth 2 }] ∧
    outer_span_spec cfgMax1
      [Context.new .Func 50, Context.new .Block 11, Context.new .Block 12] = some 12 ∧
    (some 11 : Option Nat) ≠ some 12 := by
  refine ⟨by decide, by decide, by decide⟩

/-- C4, amended: at most one open depth violation exists (a single
`current_nesting_lint` option); when a push takes the depth past
`max_depth`, an already-open violation is kept with only its depth count
refreshed, and a newly created one is anchored with `outer_span` at the
span of the context at stack index 1 (the outermost nested context, just
inside the root), not at the first past-threshold context. -/
theorem C4_open_violation_update (cfg : Config) (k : ContextKind) (sp : Nat)
    (v : Visitor) (h : cfg.max_depth < depth (push_context cfg k sp v)) :
    (∀ l, v.current_nesting_lint = some l →
      (push_context cfg k sp v).current_nesting_lint =
        some { l with reason := .Depth (depth (push_context cfg k sp v)) }) ∧
    (v.current_nesting_lint = none →
      (push_context cfg k sp v).current_nesting_lint =
        some { outer_span := ((v.contexts ++ [Context.new k sp])[1]?).map (·.span)
               span := sp
               kind := k
               reason := .Depth (depth (push_context cfg k sp v)) }) := by
  have hd : depth (push_context cfg k sp v) =
      (v.contexts ++ [Context.new k sp]).length - 1 := by
    rw [depth, push_context_contexts]
  rw [hd] at h
  have hn : ¬ (v.contexts ++ [Context.new k sp]).length - 1 ≤ cfg.max_depth := by
    omega
  constructor
  · intro l hl
    rw [hd]
    simp only [push_context, depth]
    rw [if_neg hn]
    simp [hl]
  · intro hl
    rw [hd]
    simp only [push_context, depth]
    rw [if_neg hn]
    simp [hl]

/-- C4, witness for the amended theorem: pushing a sixth context onto
`vDeep5` (open lint present) keeps the lint and refreshes its count to 5;
pushing the fifth onto the lint-free depth-3 prefix creates the lint
anchored at index 1. -/
theorem C4_open_violation_update_witness :
    (push_context Config.default .If 9 vDeep5).current_nesting_lint =
      some { lintDeep4 with reason := .Depth 5 } ∧
    (push_context Config.default .If 4
        (push_context Config.default .If 3
          (push_context Config.default .If 2
            (push_context Config.default .If 1
              (push_context Config.default .Func 0 Visitor.new))))).current_nesting_lint =
      some { outer_span := some 1, span := 4, kind := .If, reason := .Depth 4 } := by
  constructor
  · exact (C4_open_violation_update Config.default .If 9 vDeep5 (by decide)).1
      lintDeep4 (by decide)
  · have h2 := (C4_open_violation_update Config.default .If 4
      (push_context Config.default .If 3
        (push_context Config.default .If 2
          (push_context Config.default .If 1
            (push_context Config.default .Func 0 Visitor.new)))) (by decide)).2 (by decide)
    rw [h2]
    decide

/-- C5, counterexample: after four sibling `if`s an open
`ConsecIfElse` violation (count 4) exists on the function context; visiting
one more non-`if` statement clears it without appending anything to the
result list, and the full traversal of the same tree emits no diagnostics —
the open violation was silently discarded, never flushed. -/
theorem C5_counterexample :
    ((visitStmts Config.default noExcl vFnTop
        (sl [ifStmt 1, ifStmt 2, ifStmt 3, ifStmt 4])).contexts.getLast?.bind
      (·.consec_if_else_lint)) =
      some { outer_span := some 1, span := 4, kind := .Func,
             reason := .ConsecIfElse 4 } ∧
    ((visitStmt Config.default noExcl
        (visitStmts Config.default noExcl vFnTop
          (sl [ifStmt 1, ifStmt 2, ifStmt 3, ifStmt 4]))
        (.semiS (.callE .nilE 9))).contexts.getLast?.bind
      (·.consec_if_else_lint)) = none ∧
    (visitStmt Config.default noExcl
        (visitStmts Config.default noExcl vFnTop
          (sl [ifStmt 1, ifStmt 2, ifStmt 3, ifStmt 4]))
        (.semiS (.callE .nilE 9))).lints = [] ∧
    check_crate Config.default noExcl treeFourSiblingsThenCall = [] := by
  refine ⟨by decide, by decide, by decide, by decide⟩

/-- C5, amended: the open depth violation is flushed (appended exactly
once, as the last lint) at the first pop whose pre-pop depth is at most
`max_depth`, regardless of which context created it, and kept open across
deeper pops; a consecutive-branch violation is flushed at the pop of the
context holding it, but `reset_if_else` (run for every non-`if` expression
visited in that context) discards it without emitting anything. -/
theorem C5_flush_and_discard :
    (∀ (cfg : Config) (v : Visitor) (l : Lint),
      v.current_nesting_lint = some l → depth v ≤ cfg.max_depth →
      (pop_context cfg v).current_nesting_lint = none ∧
      (pop_context cfg v).lints.getLast? = some l) ∧
    (∀ (cfg : Config) (v : Visitor) (l : Lint),
      v.current_nesting_lint = some l → ¬ depth v ≤ cfg.max_depth →
      (pop_context cfg v).current_nesting_lint = some l) ∧
    (∀ (v : Visitor) (c : Context), v.contexts.getLast? = some c →
      ((reset_if_else v).contexts.getLast?.bind (·.consec_if_else_lint)) = none ∧
      (reset_if_else v).lints = v.lints) := by
  refine ⟨?_, ?_, ?_⟩
  · intro cfg v l hl hle
    have hc : (pop_flush_consec v).current_nesting_lint = some l :=
      (pop_flush_consec_cur v).trans hl
    constructor
    · show (flush_nesting cfg (depth v) (pop_flush_consec v)).current_nesting_lint = none
      rw [flush_nesting, if_pos hle, hc]
    · show (flush_nesting cfg (depth v) (pop_flush_consec v)).lints.getLast? = some l
      rw [flush_nesting, if_pos hle, hc]
      exact List.getLast?_concat _
  · intro cfg v l hl hle
    have hc : (pop_flush_consec v).current_nesting_lint = some l :=
      (pop_flush_consec_cur v).trans hl
    show (flush_nesting cfg (depth v) (pop_flush_consec v)).current_nesting_lint = some l
    rw [flush_nesting, if_neg hle]
    exact hc
  · intro v c hc
    refine ⟨?_, rfl⟩
    rw [reset_if_else_top v c hc]
    rfl

/-- C5, witness for the amended theorem at concrete states. -/
theorem C5_flush_and_discard_witness :
    ((pop_context Config.default vRootOpenLint).current_nesting_lint = none ∧
      (pop_context Config.default vRootOpenLint).lints.getLast? = some lintDeep4) ∧
    (pop_context Config.default vDeep5).current_nesting_lint = some lintDeep4 ∧
    (((reset_if_else vFnTop).contexts.getLast?.bind (·.consec_if_else_lint)) = none ∧
      (reset_if_else vFnTop).lints = vFnTop.lints) := by
  refine ⟨C5_flush_and_discard.1 Config.default vRootOpenLint lintDeep4
      (by decide) (by decide),
    C5_flush_and_discard.2.1 Config.default vDeep5 lintDeep4 (by decide) (by decide),
    C5_flush_and_discard.2.2 vFnTop (Context.new .Func 50) (by decide)⟩

/-- C6, counterexample: a pop against an empty stack — an exit with no
matching top entry, the stack-protocol violation the claim says is
detected and fatal — is a silent no-op, and a traversal in which such an
unmatched exit occurs (every top-level `fn`: `process_fn` pops the `Func`
context and `visit_item` then pops again) completes and still emits its
diagnostics instead of aborting with an error result. -/
theorem C6_counterexample :
    pop_context Config.default Visitor.new = Visitor.new ∧
    check_crate Config.default noExcl treeDeep4 =
      [{ outer_span := some 3, span := 0, kind := .If, reason := .Depth 4 }] ∧
    check_crate Config.default noExcl treeDeep4 ≠ [] := by
  refine ⟨by decide, by decide, by decide⟩

/-- C6, amended: `pop_context` takes no node identity at all and performs
no id or kind matching: for every state it totally removes the last
context (a no-op on an empty stack), only ever appends to the result
list, and never reports or aborts anything. -/
theorem C6_pop_ignores_identity (cfg : Config) (v : Visitor) :
    (pop_context cfg v).contexts = v.contexts.dropLast ∧
    ∃ extra, (pop_context cfg v).lints = v.lints ++ extra := by
  constructor
  · show (flush_nesting cfg (depth v) (pop_flush_consec v)).contexts = _
    rw [flush_nesting_contexts, pop_flush_consec_contexts]
  · obtain ⟨e1, he1⟩ := pop_flush_consec_lints v
    obtain ⟨e2, he2⟩ := flush_nesting_lints cfg (depth v) (pop_flush_consec v)
    exact ⟨e1 ++ e2, by rw [show (pop_context cfg v).lints =
      (flush_nesting cfg (depth v) (pop_flush_consec v)).lints from rfl, he2, he1,
      List.append_assoc]⟩

/-- C7: excluded nodes are skipped entirely — an expression or item whose
span the filter marks as coming from an ignored macro leaves the visitor
state untouched (nothing visited, pushed, or counted) — and concretely,
the four-deep nested conditional expanded from macro `html` with
`ignore_macros = ["html"]` yields zero diagnostics, while the identical
tree analysed without the exclusion yields the expected depth-4
diagnostic. -/
theorem C7_macro_exclusion :
    (∀ (cfg : Config) (excl : Nat → Bool) (v : Visitor) (e : Expr),
      excl e.span = true → visitExpr cfg excl v e = v) ∧
    (∀ (cfg : Config) (excl : Nat → Bool) (v : Visitor) (it : Item),
      excl it.span = true → visitItem cfg excl v it = v) ∧
    check_crate Config.default exclHtml treeDeep4 = [] ∧
    check_crate Config.default noExcl treeDeep4 =
      [{ outer_span := some 3, span := 0, kind := .If, reason := .Depth 4 }] := by
  refine ⟨visitExpr_excl, ?_, by decide, by decide⟩
  intro cfg excl v it hx
  exact visitItem_excl cfg excl v it hx

/-- C7, witness: the skip property applied to the `html`-expanded nested
conditional and an item inside the expansion. -/
theorem C7_macro_exclusion_witness :
    visitExpr Config.default exclHtml Visitor.new (nestedIf 4) = Visitor.new ∧
    visitItem Config.default exclHtml Visitor.new (.otherI 3) = Visitor.new :=
  ⟨C7_macro_exclusion.1 Config.default exclHtml Visitor.new (nestedIf 4) (by decide),
    C7_macro_exclusion.2.1 Config.default exclHtml Visitor.new (.otherI 3) (by decide)⟩

/-- C8: a deserialized configuration that omits `max_consec_if_else`
receives the inline default 3 (`DEFAULT_MAX_CONSEC_IF_ELSE` of
`nesting_depth/src/lib.rs`), matching `Config::default`. -/
theorem C8_default_consec_threshold :
    (∀ f : ConfigFile, f.max_consec_if_else = none →
      (Config.fromFile f).max_consec_if_else = 3) ∧
    Config.default.max_consec_if_else = 3 ∧
    DEFAULT_MAX_CONSEC_IF_ELSE = 3 := by
  refine ⟨?_, rfl, rfl⟩
  intro f hf
  rw [show (Config.fromFile f).max_consec_if_else =
    f.max_consec_if_else.getD DEFAULT_MAX_CONSEC_IF_ELSE from rfl, hf]
  rfl

/-- C8, witness: a configuration file supplying only `max_depth`. -/
theorem C8_default_consec_threshold_witness :
    (Config.fromFile
      { max_depth := some 5, max_items := none, max_consec_if_else := none
        : ConfigFile }).max_consec_if_else = 3 :=
  C8_default_consec_threshold.1 _ rfl

/-- C9, counterexample: on the fixed tree `fn f() { { { {{}} {{}} } } }`
(two sibling depth-4 excursions separated by a dip to depth 2), raising
`max_depth` from 2 to 3 increases the number of emitted Depth diagnostics
from 1 to 2 — the pre-pop flush condition merges the two excursions into
one open violation at the lower threshold but flushes and reopens between
them at the higher one. -/
theorem C9_counterexample :
    countDepthLints (check_crate cfgMax2 noExcl treeTwinPeaks) = 1 ∧
    countDepthLints (check_crate Config.default noExcl treeTwinPeaks) = 2 ∧
    cfgMax2.max_depth < Config.default.max_depth := by
  refine ⟨by decide, by decide, by decide⟩

/-- C9, amended: for every fixed tree, increasing `max_consecutive_branches`
(with `max_depth` fixed) can only decrease or keep the number of
`ConsecIfElse` diagnostics; the analogous monotonicity for `max_depth` and
Depth diagnostics does not hold (see the counterexample, where a higher
threshold yields strictly more Depth diagnostics). -/
theorem C9_consec_monotone (t : ItemList) (cfgA cfgB : Config)
    (hma : cfgA.max_depth = cfgB.max_depth)
    (hmc : cfgA.max_consec_if_else ≤ cfgB.max_consec_if_else) :
    countConsec (check_crate cfgB noExcl t) ≤ countConsec (check_crate cfgA noExcl t) := by
  have h0 : Inv Visitor.new Visitor.new :=
    ⟨.nil, rfl, (fun _ hl => Option.noConfusion hl), rfl, le_refl _⟩
  exact (invItems hma hmc noExcl t Visitor.new Visitor.new h0).cnt

/-- C9, witness: the consecutive-branch monotonicity at thresholds 2 and 3
on the four-sibling-ifs tree. -/
theorem C9_consec_monotone_witness :
    countConsec (check_crate Config.default noExcl treeFourSiblings) ≤
      countConsec (check_crate
        { max_depth := 3, max_items := 10, max_consec_if_else := 2 }
        noExcl treeFourSiblings) :=
  C9_consec_monotone treeFourSiblings
    { max_depth := 3, max_items := 10, max_consec_if_else := 2 }
    Config.default rfl (by decide)

/-- C10: popping with an empty stack never fails and leaves the stack
empty, `depth()` of an empty stack is 0 (the subtraction of the root
saturates), and the top-level-function traversal — in which `process_fn`
pops the `Func` context pushed by `visit_item`, whose own pop then finds
an empty stack, so exits outnumber enters — completes normally, returning
to the initial state. -/
theorem C10_pop_empty_safe :
    (∀ (cfg : Config) (ls : List Lint) (cur : Option Lint) (fn : Bool),
      (pop_context cfg
        { contexts := [], lints := ls, current_nesting_lint := cur,
          inside_fn := fn }).contexts = []) ∧
    (∀ (ls : List Lint) (cur : Option Lint) (fn : Bool),
      depth { contexts := [], lints := ls, current_nesting_lint := cur,
              inside_fn := fn } = 0) ∧
    visitItem Config.default noExcl Visitor.new (fnOf .nilS) = Visitor.new := by
  refine ⟨?_, ?_, by decide⟩
  · intro cfg ls cur fn
    show (flush_nesting cfg _ (pop_flush_consec _)).contexts = []
    rw [flush_nesting_contexts, pop_flush_consec_contexts]
    rfl
  · intro ls cur fn
    rfl

end ND
